import Mathlib

/-!
Shallow embedding of the `reqwest_mock` record/replay engine (the code under
`src/replay/` together with the `RequestBuilder` draft in `src/request_builder.rs`)
and proofs about its interaction data model, cassette storage and session behavior.

Conventions of the embedding:
* Rust `String` fields that are only stored and compared are modelled as Lean
  `String`; the canonical text of URLs and HTTP methods, which is parsed
  character by character, is modelled as `List Char`.
* Machine integers (`u16` status codes, byte values, durations) are modelled
  as `Nat`; none of the embedded code performs arithmetic on them.
* Fallible operations return `Except`/`Option`; a Rust `panic!` /
  `unwrap()`-on-`None` / `unimplemented!()` is modelled as an explicit
  outcome constructor, never as partiality.
* The `serde_json` text layer is external to the repository; serialization is
  therefore modelled down to the serde data-model image of each type (plain
  records, header maps as association lists), which the external JSON layer
  transports faithfully.
-/

set_option autoImplicit false

namespace ReqwestMock

/-! ## Redirect policy (`src/lib.rs`) -/

/-- `RedirectPolicy` from `src/lib.rs`: `Limit(usize)` or `None`. -/
inductive RedirectPolicy where
  | Limit (n : Nat)
  | None
deriving DecidableEq, Repr

/-- `RedirectPolicy::default()` is `Self::limited(10)`. -/
def RedirectPolicy.default : RedirectPolicy := .Limit 10

/-! ## URL boundary model

Modelled from the spec: the external `url`/`reqwest::Url` parser used by
`wrap_as_serde_str_type!(Url, ::reqwest::Url)` in `src/replay/data.rs` is not
part of this repository; §4.1/§6 of the design specify it at the boundary as
"URL and method are stored as their canonical string form and must re-parse to
an equal value". We model a URL as scheme, host and path-with-query components,
with canonical text `scheme ++ "://" ++ host ++ path`. -/

structure Url where
  scheme : List Char
  host : List Char
  path : List Char
deriving DecidableEq, Repr

/-- Canonical string form of a URL (the `as_ref()` used by serialization). -/
def Url.toChars (u : Url) : List Char :=
  u.scheme ++ [':', '/', '/'] ++ u.host ++ u.path

/-- Split `scheme://rest` at the first occurrence of `"://"`. -/
def splitSchemeAux : List Char → Option (List Char × List Char)
  | [] => none
  | c :: cs =>
    if c = ':' ∧ cs.take 2 = ['/', '/'] then some ([], cs.drop 2)
    else
      match splitSchemeAux cs with
      | some (a, b) => some (c :: a, b)
      | none => none

/-- Predicate for characters that may appear in the host component. -/
def notSlash (c : Char) : Bool := c != '/'

/-- Parse a canonical URL string; `none` on malformed input. -/
def Url.parse (s : List Char) : Option Url :=
  match splitSchemeAux s with
  | none => none
  | some (sch, rest) =>
    let host := rest.takeWhile notSlash
    let path := rest.dropWhile notSlash
    if sch = [] ∨ host = [] then none
    else some { scheme := sch, host := host, path := path }

/-- Well-formedness of a parsed URL: the invariant the external `url` crate
maintains for values it has produced (nonempty scheme without `':'`, nonempty
host without `'/'`, path empty or absolute). -/
def Url.wf (u : Url) : Prop :=
  u.scheme ≠ [] ∧ ':' ∉ u.scheme ∧ u.host ≠ [] ∧ '/' ∉ u.host ∧
    (u.path = [] ∨ u.path.head? = some '/')

instance (u : Url) : Decidable u.wf := by
  unfold Url.wf; infer_instance

/-! ## HTTP method boundary model

Modelled from the spec: `wrap_as_serde_str_type!(Method, ::reqwest::Method)`
parses the stored method string with the external hyper `Method::from_str`,
which recognizes the nine standard methods and otherwise accepts any
nonempty token as an extension method. -/

inductive Method where
  | Options | Get | Post | Put | Delete | Head | Trace | Connect | Patch
  | Extension (s : List Char)
deriving DecidableEq, Repr

/-- Characters allowed in an extension-method token (boundary model). -/
def isTokenChar (c : Char) : Bool := c.isAlpha || c == '-'

/-- A valid nonempty method token. -/
def isToken (s : List Char) : Bool := !s.isEmpty && s.all isTokenChar

/-- Canonical string form of a method. -/
def Method.toChars : Method → List Char
  | .Options => "OPTIONS".toList
  | .Get => "GET".toList
  | .Post => "POST".toList
  | .Put => "PUT".toList
  | .Delete => "DELETE".toList
  | .Head => "HEAD".toList
  | .Trace => "TRACE".toList
  | .Connect => "CONNECT".toList
  | .Patch => "PATCH".toList
  | .Extension s => s

/-- Parse a method string; standard names first, then extension tokens. -/
def Method.parse (s : List Char) : Option Method :=
  if s = "OPTIONS".toList then some .Options
  else if s = "GET".toList then some .Get
  else if s = "POST".toList then some .Post
  else if s = "PUT".toList then some .Put
  else if s = "DELETE".toList then some .Delete
  else if s = "HEAD".toList then some .Head
  else if s = "TRACE".toList then some .Trace
  else if s = "CONNECT".toList then some .Connect
  else if s = "PATCH".toList then some .Patch
  else if isToken s then some (.Extension s) else none

/-- Well-formed methods: extension tokens are valid and not spelled like a
standard method (those parse to the standard constructor instead). -/
def Method.wf : Method → Prop
  | .Extension s =>
    isToken s = true ∧
      s ∉ ["OPTIONS".toList, "GET".toList, "POST".toList, "PUT".toList,
           "DELETE".toList, "HEAD".toList, "TRACE".toList, "CONNECT".toList,
           "PATCH".toList]
  | _ => True

instance (m : Method) : Decidable m.wf := by
  cases m <;> (unfold Method.wf; infer_instance)

/-! ## Headers (`src/replay/data.rs`, `Headers` wrapper)

`reqwest::header::Headers` (hyper 0.10) is a case-insensitive multimap kept
in insertion order: one entry per name, each holding the ordered list of raw
values. `Headers::serialize` maps every entry to `(name, value_string)` and
collects the pairs into a `HashMap<String, String>`; `value_string` joins the
raw values of a name with `", "`. `Headers::deserialize` rebuilds the map by
`append_raw`-ing every `(name, value)` pair. -/

structure Headers where
  entries : List (String × List String)
deriving DecidableEq, Repr

def Headers.empty : Headers := ⟨[]⟩

/-- ASCII-style lowering for case-insensitive header-name comparison (the
`unicase` wrapper hyper keys its header map with). -/
def strLower (s : String) : String := ⟨s.data.map Char.toLower⟩

/-- hyper's `value_string`: the raw values of one name joined with `", "`. -/
def joinValues : List String → String
  | [] => ""
  | [v] => v
  | v :: vs => v ++ ", " ++ joinValues vs

/-- `Headers::append_raw`: append the value to an existing entry with the same
case-insensitive name, or push a fresh entry at the end. -/
def Headers.appendRaw (h : Headers) (name value : String) : Headers :=
  if h.entries.any (fun e => strLower e.1 == strLower name) then
    ⟨h.entries.map (fun e =>
      if strLower e.1 == strLower name then (e.1, e.2 ++ [value]) else e)⟩
  else ⟨h.entries ++ [(name, [value])]⟩

/-- hyper's `set`: replace any entry of that name with a single value. -/
def Headers.set (h : Headers) (name value : String) : Headers :=
  ⟨h.entries.filter (fun e => !(strLower e.1 == strLower name)) ++ [(name, [value])]⟩

/-- hyper's `extend`: set each entry of the other collection in turn. -/
def Headers.extend (h other : Headers) : Headers :=
  other.entries.foldl (fun acc e => acc.set e.1 (joinValues e.2)) h

/-- `impl Serialize for Headers`: the serde image is the name-to-joined-value
map, carried as its association list (the `HashMap` is unordered; this list is
its enumeration). -/
def Headers.serialize (h : Headers) : List (String × String) :=
  h.entries.map (fun e => (e.1, joinValues e.2))

/-- `impl Deserialize for Headers`: `append_raw` every pair of the map. -/
def Headers.deserialize (m : List (String × String)) : Headers :=
  m.foldl (fun h p => h.appendRaw p.1 p.2) Headers.empty

/-- The hyper invariant: one entry per case-insensitive name. -/
def Headers.wf (h : Headers) : Prop :=
  h.entries.Pairwise (fun a b => strLower a.1 ≠ strLower b.1)

instance (h : Headers) : Decidable h.wf := by
  unfold Headers.wf; infer_instance

/-! ### Canonical view of headers for request-equivalence (spec §3)

Header names compare case-insensitively and neither entry order nor the
order of a name's values participates in equality, so the canonical view
lower-cases the names, sorts each value list and sorts the entry list. -/

/-- Lexicographic order on character lists by code point. -/
def charsLe : List Char → List Char → Bool
  | [], _ => true
  | _ :: _, [] => false
  | a :: as, b :: bs => if a = b then charsLe as bs else a.toNat < b.toNat

def strLe (a b : String) : Bool := charsLe a.data b.data

def strListLe : List String → List String → Bool
  | [], _ => true
  | _ :: _, [] => false
  | a :: as, b :: bs => if a = b then strListLe as bs else strLe a b

/-- Order on canonical header entries: by name, then by value list. -/
def entryLe (a b : String × List String) : Bool :=
  if a.1 = b.1 then strListLe a.2 b.2 else strLe a.1 b.1

def insertSorted {α : Type} (le : α → α → Bool) (x : α) : List α → List α
  | [] => [x]
  | y :: ys => if le x y then x :: y :: ys else y :: insertSorted le x ys

def sortBy {α : Type} (le : α → α → Bool) (l : List α) : List α :=
  l.foldr (insertSorted le) []

/-- Canonical form of headers: lower-cased names, sorted values, sorted entries. -/
def Headers.canon (h : Headers) : List (String × List String) :=
  sortBy entryLe (h.entries.map (fun e => (strLower e.1, sortBy strLe e.2)))

/-! ## Interaction data model (`src/replay/data.rs`) -/

/-- `BasicAuth` from `src/replay/data.rs`. -/
structure BasicAuth where
  username : String
  password : Option String
deriving DecidableEq, Repr

/-- `RequestTarget`: the (url, method) pair wrapped for string serialization. -/
structure RequestTarget where
  url : Url
  method : Method
deriving DecidableEq, Repr

/-- `RequestData` from `src/replay/data.rs`. `timeout` models `Duration`
as a number of time units; `body` is the raw byte sequence. -/
structure RequestData where
  target : Option RequestTarget
  gzip : Bool
  redirect : RedirectPolicy
  timeout : Option Nat
  basic_auth : Option BasicAuth
  headers : Headers
  body : Option (List Nat)
deriving DecidableEq, Repr

/-- `RequestData::default()`: no target, gzip on, default redirect policy,
no timeout, no auth, empty headers, no body. -/
def RequestData.default : RequestData :=
  { target := none
    gzip := true
    redirect := RedirectPolicy.default
    timeout := none
    basic_auth := none
    headers := Headers.empty
    body := none }

/-- `ClientData` from `src/replay/data.rs`: the session-scoped config. -/
structure ClientData where
  gzip : Bool
  redirect : RedirectPolicy
  timeout : Option Nat
deriving DecidableEq, Repr

/-- `ClientData::default()`. -/
def ClientData.default : ClientData :=
  { gzip := true, redirect := RedirectPolicy.default, timeout := none }

/-- `RequestData::new_for_client`: start from the default and copy the
session config's gzip, redirect and timeout into the fresh request data. -/
def RequestData.new_for_client (cd : ClientData) : RequestData :=
  { RequestData.default with
    gzip := cd.gzip
    redirect := cd.redirect
    timeout := cd.timeout }

/-- `ResponseData` from `src/replay/data.rs`; `status` models the `u16`
status code. -/
structure ResponseData where
  url : Url
  status : Nat
  headers : Headers
  body : List Nat
deriving DecidableEq, Repr

/-- `ResponseData::new`: snapshot the live response's final url, status,
headers and body bytes. -/
def ResponseData.new (url : Url) (status : Nat) (headers : Headers)
    (body : List Nat) : ResponseData :=
  { url := url, status := status, headers := headers, body := body }

/-- `ReplayData` from `src/replay/storage.rs`: one recorded interaction. -/
structure ReplayData where
  request : RequestData
  response : ResponseData
deriving DecidableEq, Repr

/-! ## Serialization (`src/replay/data.rs` serde impls)

Each `Ser…` structure is the serde data-model image of the corresponding
type, as produced by the handwritten and derived `Serialize` impls: URLs and
methods become their canonical strings, status codes become their `u16`,
headers become the name-to-joined-value map, and the remaining fields are
carried by the derived field-by-field encoding. -/

structure SerRequestTarget where
  url : List Char
  method : List Char
deriving DecidableEq, Repr

structure SerRequestData where
  target : Option SerRequestTarget
  gzip : Bool
  redirect : RedirectPolicy
  timeout : Option Nat
  basic_auth : Option BasicAuth
  headers : List (String × String)
  body : Option (List Nat)
deriving DecidableEq, Repr

structure SerResponseData where
  url : List Char
  status : Nat
  headers : List (String × String)
  body : List Nat
deriving DecidableEq, Repr

structure SerReplayData where
  request : SerRequestData
  response : SerResponseData
deriving DecidableEq, Repr

/-- Deserialization failure: the stored text fails to parse back. The
deserializer reports it through serde's `Error::custom`; it never panics. -/
inductive DeError where
  | corrupt
deriving DecidableEq, Repr

def RequestTarget.serialize (t : RequestTarget) : SerRequestTarget :=
  { url := t.url.toChars, method := t.method.toChars }

/-- The `Deserialize` impl generated by `wrap_as_serde_str_type!` for `Url`:
re-parse the stored string, reporting failure through `Error::custom`. -/
def Url.deserializeField (s : List Char) : Except DeError Url :=
  match Url.parse s with
  | some u => .ok u
  | none => .error .corrupt

/-- The `Deserialize` impl generated by `wrap_as_serde_str_type!` for `Method`. -/
def Method.deserializeField (s : List Char) : Except DeError Method :=
  match Method.parse s with
  | some m => .ok m
  | none => .error .corrupt

/-- Deserialize a target: re-parse both stored strings, error on failure. -/
def RequestTarget.deserialize (t : SerRequestTarget) :
    Except DeError RequestTarget :=
  match Url.deserializeField t.url, Method.deserializeField t.method with
  | .ok u, .ok m => .ok { url := u, method := m }
  | .error e, _ => .error e
  | _, .error e => .error e

def RequestData.serialize (rd : RequestData) : SerRequestData :=
  { target := rd.target.map RequestTarget.serialize
    gzip := rd.gzip
    redirect := rd.redirect
    timeout := rd.timeout
    basic_auth := rd.basic_auth
    headers := rd.headers.serialize
    body := rd.body }

def RequestData.deserialize (s : SerRequestData) : Except DeError RequestData :=
  match s.target with
  | none =>
    .ok { target := none
          gzip := s.gzip
          redirect := s.redirect
          timeout := s.timeout
          basic_auth := s.basic_auth
          headers := Headers.deserialize s.headers
          body := s.body }
  | some t =>
    match RequestTarget.deserialize t with
    | .ok tt =>
      .ok { target := some tt
            gzip := s.gzip
            redirect := s.redirect
            timeout := s.timeout
            basic_auth := s.basic_auth
            headers := Headers.deserialize s.headers
            body := s.body }
    | .error e => .error e

def ResponseData.serialize (r : ResponseData) : SerResponseData :=
  { url := r.url.toChars
    status := r.status
    headers := r.headers.serialize
    body := r.body }

def ResponseData.deserialize (s : SerResponseData) :
    Except DeError ResponseData :=
  match Url.parse s.url with
  | some u =>
    .ok { url := u
          status := s.status
          headers := Headers.deserialize s.headers
          body := s.body }
  | none => .error .corrupt

def ReplayData.serialize (d : ReplayData) : SerReplayData :=
  { request := d.request.serialize, response := d.response.serialize }

def ReplayData.deserialize (s : SerReplayData) : Except DeError ReplayData :=
  match RequestData.deserialize s.request with
  | .error e => .error e
  | .ok req =>
    match ResponseData.deserialize s.response with
    | .error e => .error e
    | .ok resp => .ok { request := req, response := resp }

/-! ## Cassette storage (`src/replay/storage.rs`) -/

/-- The state of the replay file's path on disk: `none` when the file does
not exist, otherwise the (JSON image of the) stored interaction. The format
holds exactly one `ReplayData`, not a sequence. -/
structure FileState where
  contents : Option SerReplayData
deriving DecidableEq, Repr

/-- Storage errors per the design taxonomy (§7): `File::open`/`File::create`
failures surface as `ioError`, parse failures as `corruptCassette`. -/
inductive StoreError where
  | ioError
  | corruptCassette
deriving DecidableEq, Repr

/-- `ReplayFile::read`: `File::open(&self.path)?` fails on a missing file
(the `?` propagates the io error); otherwise `serde_json::from_reader`, whose
parse failure is the corrupt-cassette error. -/
def ReplayFile.read (fs : FileState) : Except StoreError ReplayData :=
  match fs.contents with
  | none => .error .ioError
  | some ser =>
    match ReplayData.deserialize ser with
    | .ok d => .ok d
    | .error _ => .error .corruptCassette

/-- `ReplayFile::write`: `File::create(&self.path)` truncates the file and
`serde_json::to_writer` writes the single given interaction. -/
def ReplayFile.write (_fs : FileState) (d : ReplayData) : FileState :=
  { contents := some d.serialize }

/-- The interactions persisted in the file, as a list (used to state what a
reader of the cassette can recover). -/
def FileState.persisted (fs : FileState) : List SerReplayData :=
  fs.contents.toList

/-! ## Session controller (`src/replay/mod.rs`) -/

/-- `ClientMode`: fixed per session. -/
inductive ClientMode where
  | Record
  | Replay
deriving DecidableEq, Repr

/-- `HandleChangedRequest`: the reconciliation policy enum. It is declared in
`src/replay/mod.rs` but never consulted by `send_request`. -/
inductive HandleChangedRequest where
  | Ignore
  | Record
  | Panic
deriving DecidableEq, Repr

/-- The tuple handed to the external transport (`reqwest` client + request),
per the §6 boundary `execute(method, url, headers, body, gzip,
redirect_policy, timeout, basic_auth)`. -/
structure LiveRequest where
  method : Method
  url : Url
  gzip : Bool
  redirect : RedirectPolicy
  timeout : Option Nat
  basicAuth : Option BasicAuth
  headers : Headers
  body : Option (List Nat)
deriving DecidableEq, Repr

/-- The live response observed from the transport. -/
structure TransportResponse where
  url : Url
  status : Nat
  headers : Headers
  body : List Nat
deriving DecidableEq, Repr

/-- The transport capability: `req.send()` returning a response or a
transport error (carried as its message). `reqwest::Client::new()` is
modelled as infallible — its failure mode is environment-specific TLS setup,
outside the recorded semantics. -/
def Transport : Type := LiveRequest → Except String TransportResponse

/-- Assemble the live request exactly as the `Record` arm of
`InnerClient::send_request` does from the request data and its target. -/
def mkLiveRequest (rd : RequestData) (t : RequestTarget) : LiveRequest :=
  { method := t.method
    url := t.url
    gzip := rd.gzip
    redirect := rd.redirect
    timeout := rd.timeout
    basicAuth := rd.basic_auth
    headers := rd.headers
    body := rd.body }

/-- Outcome of one `send`: a returned response, the transport's error
surfaced unchanged, or one of the two panics the code can hit
(`request_data.target.clone().unwrap()` on `None`, and the `unimplemented!()`
Replay arm). -/
inductive SendOutcome where
  | ok (resp : TransportResponse)
  | transportError (e : String)
  | panicUnwrapNone
  | panicUnimplemented
deriving DecidableEq, Repr

/-- Result of `InnerClient::send_request`: the outcome, the replay file's
state afterwards, and how many transport calls were made. -/
structure SendResult where
  outcome : SendOutcome
  file : FileState
  transportCalls : Nat
deriving DecidableEq, Repr

/-- `InnerClient::send_request` from `src/replay/mod.rs`. In `Record` mode it
unwraps the target, performs the live call, and on success snapshots the
response into a `ResponseData` and writes the `ReplayData` pair to the file;
a transport error propagates via `?` before anything is written. The
`Replay` arm is `unimplemented!()`. -/
def InnerClient.sendRequest (mode : ClientMode) (transport : Transport)
    (file : FileState) (request_data : RequestData) : SendResult :=
  match mode with
  | .Record =>
    match request_data.target with
    | none => { outcome := .panicUnwrapNone, file := file, transportCalls := 0 }
    | some target =>
      match transport (mkLiveRequest request_data target) with
      | .error e =>
        { outcome := .transportError e, file := file, transportCalls := 1 }
      | .ok resp =>
        let response_data :=
          ResponseData.new resp.url resp.status resp.headers resp.body
        let replay_data : ReplayData :=
          { request := request_data, response := response_data }
        { outcome := .ok resp
          file := ReplayFile.write file replay_data
          transportCalls := 1 }
  | .Replay =>
    { outcome := .panicUnimplemented, file := file, transportCalls := 0 }

/-- `ReplayRequestBuilder` from `src/replay/mod.rs`: method and url live in
the builder's own fields, next to the accumulated `RequestData`. -/
structure ReplayRequestBuilder where
  method : Method
  url : Url
  data : RequestData
deriving DecidableEq, Repr

/-- `ReplayClient::request` with an already-valid url: the builder's data is
`RequestData::new_for_client(&self.data)`; `target` is never assigned. -/
def ReplayClient.request (cd : ClientData) (method : Method) (url : Url) :
    ReplayRequestBuilder :=
  { method := method, url := url, data := RequestData.new_for_client cd }

/-- Outcome of `ReplayClient::request` on a raw url string: the code runs
`url.into_url().unwrap()`, so a malformed url is a panic, not an error. -/
inductive BuilderOutcome where
  | built (b : ReplayRequestBuilder)
  | panicked
deriving DecidableEq, Repr

def ReplayClient.requestFromString (cd : ClientData) (method : Method)
    (url : List Char) : BuilderOutcome :=
  match Url.parse url with
  | some u => .built (ReplayClient.request cd method u)
  | none => .panicked

/-- The builder methods of `impl RequestBuilder for ReplayRequestBuilder`.
`form` carries the url-encoded body string, `jsonOp` the encoded json bytes
(the encoders are external serde crates). -/
inductive BuilderOp where
  | header (name value : String)
  | headersOp (hs : Headers)
  | basicAuth (username : String) (password : Option String)
  | bodyOp (b : List Nat)
  | form (encoded : String)
  | jsonOp (encoded : List Nat)
deriving DecidableEq, Repr

/-- Byte view of a string body (`body(String)` stores its bytes). -/
def strBytes (s : String) : List Nat := s.data.map Char.toNat

/-- Apply one builder method; each only touches headers, auth or body. -/
def applyOp (b : ReplayRequestBuilder) : BuilderOp → ReplayRequestBuilder
  | .header n v => { b with data := { b.data with headers := b.data.headers.set n v } }
  | .headersOp hs => { b with data := { b.data with headers := b.data.headers.extend hs } }
  | .basicAuth u p =>
    { b with data := { b.data with basic_auth := some { username := u, password := p } } }
  | .bodyOp bytes => { b with data := { b.data with body := some bytes } }
  | .form enc =>
    { b with data := { b.data with
        headers := b.data.headers.set "Content-Type" "application/x-www-form-urlencoded"
        body := some (strBytes enc) } }
  | .jsonOp bytes =>
    { b with data := { b.data with
        headers := b.data.headers.set "Content-Type" "application/json"
        body := some bytes } }

/-- Session-level events against one `ReplayClient`: the three config
setters of `impl Client for ReplayClient`, and builder creation. -/
inductive SessionEvent where
  | setGzip (b : Bool)
  | setRedirect (p : RedirectPolicy)
  | setTimeout (d : Nat)
  | create (method : Method) (url : Url)
deriving DecidableEq, Repr

/-- Effect of an event on the session config (`self.data`). -/
def stepConfig (cd : ClientData) : SessionEvent → ClientData
  | .setGzip b => { cd with gzip := b }
  | .setRedirect p => { cd with redirect := p }
  | .setTimeout d => { cd with timeout := some d }
  | .create _ _ => cd

/-- The builders a session produces, in creation order; each is seeded from
the config current at its creation. -/
def sessionBuilders (cd : ClientData) : List SessionEvent → List ReplayRequestBuilder
  | [] => []
  | e :: es =>
    match e with
    | .create m u => ReplayClient.request cd m u :: sessionBuilders cd es
    | .setGzip b => sessionBuilders (stepConfig cd (.setGzip b)) es
    | .setRedirect p => sessionBuilders (stepConfig cd (.setRedirect p)) es
    | .setTimeout d => sessionBuilders (stepConfig cd (.setTimeout d)) es

/-- Number of builder-creation events. -/
def countCreates (l : List SessionEvent) : Nat :=
  (l.filter (fun e => match e with | .create _ _ => true | _ => false)).length

/-! ## The `RequestBuilder` draft (`src/request_builder.rs`)

Modelled from the spec where its collaborators are missing from `src/`: the
`error::Error` type produced by `chain_err(|| "invalid url")` and the
`client::Client::execute` capability exist only as this file's callers; §7
names the malformed-url failure `InvalidUrl` and §6 gives the transport
boundary. The builder itself is embedded from the source. -/

/-- Failures `RequestBuilder::send` can report. Modelled from the spec:
`InvalidUrl` is §7's "malformed URL supplied to a request builder". -/
inductive RBError where
  | invalidUrl
  | transportFailure (e : String)
deriving DecidableEq, Repr

instance {ε α : Type} [DecidableEq ε] [DecidableEq α] : DecidableEq (Except ε α) := fun a b =>
  match a, b with
  | .ok x, .ok y =>
    if h : x = y then .isTrue (by rw [h]) else .isFalse (by intro hh; cases hh; exact h rfl)
  | .error x, .error y =>
    if h : x = y then .isTrue (by rw [h]) else .isFalse (by intro hh; cases hh; exact h rfl)
  | .ok _, .error _ => .isFalse (by intro hh; cases hh)
  | .error _, .ok _ => .isFalse (by intro hh; cases hh)

/-- `RequestBuilder`: the url field holds the parse result
(`url.into_url().chain_err(|| "invalid url")`). -/
structure RB where
  url : Except Unit Url
  method : Method
  headers : Headers
  body : Option (List Nat)
deriving DecidableEq, Repr

/-- `RequestBuilder::new`: parse the url eagerly, store the result. -/
def RequestBuilder.new (url : List Char) (method : Method) : RB :=
  { url := match Url.parse url with
           | some u => .ok u
           | none => .error ()
    method := method
    headers := Headers.empty
    body := none }

/-- The builder methods of `request_builder.rs`: `header`, `headers`, `body`. -/
inductive RBOp where
  | header (name value : String)
  | headersOp (hs : Headers)
  | bodyOp (b : List Nat)
deriving DecidableEq, Repr

def applyRBOp (b : RB) : RBOp → RB
  | .header n v => { b with headers := b.headers.set n v }
  | .headersOp hs => { b with headers := b.headers.extend hs }
  | .bodyOp bytes => { b with body := some bytes }

/-- The request record handed to `client.execute` by `send`. -/
structure RBRequest where
  url : Url
  method : Method
  headers : Headers
  body : Option (List Nat)
deriving DecidableEq, Repr

/-- `RequestBuilder::send`: `self.url?` surfaces a stored parse failure as
the typed `InvalidUrl` error before any transport call; otherwise the request
is executed exactly once. The second component counts transport calls. -/
def RB.send (execute : RBRequest → Except String TransportResponse) (b : RB) :
    Except RBError TransportResponse × Nat :=
  match b.url with
  | .error _ => (.error .invalidUrl, 0)
  | .ok u =>
    match execute { url := u, method := b.method, headers := b.headers, body := b.body } with
    | .ok r => (.ok r, 1)
    | .error e => (.error (.transportFailure e), 1)

/-! ## Request-equivalence and response identity (spec §3) -/

/-- Absent and empty bodies are equivalent for matching (§3). -/
def bodyCanon (b : Option (List Nat)) : List Nat := b.getD []

/-- Request-equivalence (§3): method, url, headers as case-insensitive
name/value sets, body bytes and basic auth — the transport knobs `gzip`,
`redirect` and `timeout` do not participate. -/
def requestEquivalent (a b : RequestData) : Prop :=
  a.target = b.target ∧
    a.headers.canon = b.headers.canon ∧
    bodyCanon a.body = bodyCanon b.body ∧
    a.basic_auth = b.basic_auth

instance (a b : RequestData) : Decidable (requestEquivalent a b) :=
  inferInstanceAs (Decidable (_ ∧ _ ∧ _ ∧ _))

/-- Response identity: equal up to the order-insensitivity of headers (§3:
insertion order is preserved for serialization but irrelevant to equality). -/
def responseIdentical (a b : ResponseData) : Prop :=
  a.url = b.url ∧ a.status = b.status ∧
    a.headers.canon = b.headers.canon ∧ a.body = b.body

instance (a b : ResponseData) : Decidable (responseIdentical a b) :=
  inferInstanceAs (Decidable (_ ∧ _ ∧ _ ∧ _))

/-- Every header entry carries exactly one value. -/
def Headers.singleValued (h : Headers) : Prop :=
  ∀ e ∈ h.entries, e.2.length = 1

instance (h : Headers) : Decidable h.singleValued :=
  inferInstanceAs (Decidable (∀ e ∈ h.entries, e.2.length = 1))

/-- A valid interaction (§4.1's "valid x"): every stored url and method is a
value the external parsers produced, and headers obey the hyper invariant. -/
def ReplayData.valid (d : ReplayData) : Prop :=
  (∀ t, d.request.target = some t → t.url.wf ∧ t.method.wf) ∧
    d.response.url.wf ∧ d.request.headers.wf ∧ d.response.headers.wf

instance (d : ReplayData) : Decidable d.valid := by
  unfold ReplayData.valid; infer_instance

/-! ## Concrete scenario values (spec §8) used by the theorems below -/

/-- `https://example.com/users`. -/
def urlEx : Url :=
  { scheme := "https".toList, host := "example.com".toList, path := "/users".toList }

/-- The recorded `GET https://example.com/users` with an `Accept` header. -/
def getUsersRequest : RequestData :=
  { target := some { url := urlEx, method := .Get }
    gzip := true
    redirect := RedirectPolicy.default
    timeout := none
    basic_auth := none
    headers := ⟨[("Accept", ["application/json"])]⟩
    body := none }

/-- A captured 200 response for it. -/
def okResponse : ResponseData :=
  { url := urlEx, status := 200, headers := Headers.empty, body := strBytes "id:1" }

/-- The interaction stored in the cassette for the replay scenario. -/
def c1Recorded : ReplayData := { request := getUsersRequest, response := okResponse }

/-- A cassette file holding exactly the recorded interaction. -/
def c1File : FileState := { contents := some c1Recorded.serialize }

/-- A transport that fails every live call, so any transport contact would be
visible in the outcome. -/
def c1Transport : Transport := fun _ => .error "network disabled"

/-- An interaction whose request carries a multi-valued `Accept` header. -/
def c3Interaction : ReplayData :=
  { request :=
      { target := some { url := urlEx, method := .Get }
        gzip := true
        redirect := RedirectPolicy.default
        timeout := none
        basic_auth := none
        headers := ⟨[("Accept", ["text/html", "application/json"])]⟩
        body := none }
    response := { url := urlEx, status := 200, headers := Headers.empty, body := [] } }

/-- What the round trip actually produces for it: the two `Accept` values
collapsed into the single joined string. -/
def c3RoundTripped : ReplayData :=
  { request :=
      { target := some { url := urlEx, method := .Get }
        gzip := true
        redirect := RedirectPolicy.default
        timeout := none
        basic_auth := none
        headers := ⟨[("Accept", ["text/html, application/json"])]⟩
        body := none }
    response := { url := urlEx, status := 200, headers := Headers.empty, body := [] } }

/-- First interaction of a two-request recording session. -/
def c4First : ReplayData :=
  { request := getUsersRequest
    response := { url := urlEx, status := 200, headers := Headers.empty, body := [] } }

/-- Second interaction of the session, distinguishable from the first. -/
def c4Second : ReplayData :=
  { request := getUsersRequest
    response := { url := urlEx, status := 404, headers := Headers.empty, body := [] } }

/-- Headers with one name bound to two values. -/
def c7Multi : Headers := ⟨[("X-Multi", ["a", "b"])]⟩

/-- A stored interaction whose request target url does not re-parse. -/
def c10BadSer : SerReplayData :=
  { request :=
      { target := some { url := "bogus".toList, method := "GET".toList }
        gzip := true
        redirect := RedirectPolicy.default
        timeout := none
        basic_auth := none
        headers := []
        body := none }
    response := { url := urlEx.toChars, status := 200, headers := [], body := [] } }

/-! ## Helper lemmas -/

theorem Headers.eq_of_entries {a b : Headers} (h : a.entries = b.entries) : a = b := by
  cases a; cases b; cases h; rfl

theorem splitSchemeAux_append (sch rest : List Char) (h : ':' ∉ sch) :
    splitSchemeAux (sch ++ ':' :: '/' :: '/' :: rest) = some (sch, rest) := by
  induction sch with
  | nil => simp [splitSchemeAux]
  | cons c cs ih =>
    have hc : ¬(c = ':' ∧ (cs ++ ':' :: '/' :: '/' :: rest).take 2 = ['/', '/']) := by
      intro hcontra
      exact h (hcontra.1 ▸ List.mem_cons_self c cs)
    have h' : ':' ∉ cs := fun m => h (List.mem_cons_of_mem _ m)
    simp only [List.cons_append, splitSchemeAux, List.append_eq, if_neg hc, ih h']

theorem takeWhile_append_all {α : Type} {p : α → Bool} (xs ys : List α)
    (h : ∀ c ∈ xs, p c = true) :
    (xs ++ ys).takeWhile p = xs ++ ys.takeWhile p := by
  induction xs with
  | nil => simp
  | cons a as ih =>
    have ha := h a (List.mem_cons_self a as)
    simp only [List.cons_append, List.takeWhile_cons, ha, if_true,
      ih (fun c m => h c (List.mem_cons_of_mem _ m))]

theorem dropWhile_append_all {α : Type} {p : α → Bool} (xs ys : List α)
    (h : ∀ c ∈ xs, p c = true) :
    (xs ++ ys).dropWhile p = ys.dropWhile p := by
  induction xs with
  | nil => simp
  | cons a as ih =>
    have ha := h a (List.mem_cons_self a as)
    simp only [List.cons_append, List.dropWhile_cons, ha, if_true,
      ih (fun c m => h c (List.mem_cons_of_mem _ m))]

/-- A well-formed URL's canonical string re-parses to the same value. -/
theorem url_parse_roundtrip (u : Url) (h : u.wf) : Url.parse u.toChars = some u := by
  obtain ⟨hs, hsc, hh, hhs, hp⟩ := h
  have hsplit : splitSchemeAux (u.scheme ++ ':' :: '/' :: '/' :: (u.host ++ u.path))
      = some (u.scheme, u.host ++ u.path) := splitSchemeAux_append _ _ hsc
  have hhost : ∀ c ∈ u.host, notSlash c = true := by
    intro c hc
    have : c ≠ '/' := fun e => hhs (e ▸ hc)
    simpa [notSlash] using this
  have htake : (u.host ++ u.path).takeWhile notSlash = u.host := by
    rw [takeWhile_append_all _ _ hhost]
    rcases hp with hp | hp
    · simp [hp]
    · cases hpath : u.path with
      | nil => simp
      | cons a t =>
        rw [hpath] at hp
        simp only [List.head?_cons, Option.some.injEq] at hp
        subst hp
        simp [List.takeWhile_cons, notSlash]
  have hdrop : (u.host ++ u.path).dropWhile notSlash = u.path := by
    rw [dropWhile_append_all _ _ hhost]
    rcases hp with hp | hp
    · simp [hp]
    · cases hpath : u.path with
      | nil => simp
      | cons a t =>
        rw [hpath] at hp
        simp only [List.head?_cons, Option.some.injEq] at hp
        subst hp
        simp [List.dropWhile_cons, notSlash]
  have hshape : u.toChars = u.scheme ++ ':' :: '/' :: '/' :: (u.host ++ u.path) := by
    simp [Url.toChars]
  rw [Url.parse, hshape, hsplit]
  simp only [htake, hdrop]
  rw [if_neg (by simp [hs, hh])]

/-- A well-formed method's canonical string re-parses to the same value. -/
theorem method_parse_roundtrip (m : Method) (h : m.wf) :
    Method.parse m.toChars = some m := by
  cases m with
  | Extension s =>
    obtain ⟨ht, hres⟩ := h
    simp only [List.mem_cons, List.not_mem_nil, or_false, not_or] at hres
    obtain ⟨h1, h2, h3, h4, h5, h6, h7, h8, h9⟩ := hres
    show Method.parse s = some (Method.Extension s)
    unfold Method.parse
    rw [if_neg h1, if_neg h2, if_neg h3, if_neg h4, if_neg h5, if_neg h6,
      if_neg h7, if_neg h8, if_neg h9, if_pos ht]
  | Options => decide
  | Get => decide
  | Post => decide
  | Put => decide
  | Delete => decide
  | Head => decide
  | Trace => decide
  | Connect => decide
  | Patch => decide

/-- Folding `append_raw` over pairs with pairwise-distinct case-insensitive
names, none of which occur in the accumulator, appends each as a fresh
single-valued entry in order. -/
theorem foldl_appendRaw (l : List (String × String)) :
    ∀ h0 : Headers,
      (∀ p ∈ l, ∀ e ∈ h0.entries, strLower e.1 ≠ strLower p.1) →
      l.Pairwise (fun a b => strLower a.1 ≠ strLower b.1) →
      (l.foldl (fun h p => h.appendRaw p.1 p.2) h0).entries
        = h0.entries ++ l.map (fun p => (p.1, [p.2])) := by
  induction l with
  | nil => intro h0 _ _; simp
  | cons q qs ih =>
    intro h0 hdisj hpw
    obtain ⟨hq, hqs⟩ := List.pairwise_cons.1 hpw
    have hany : h0.entries.any (fun e => strLower e.1 == strLower q.1) = false := by
      rw [List.any_eq_false]
      intro e he
      simpa using hdisj q (List.mem_cons_self q qs) e he
    have h1 : Headers.appendRaw h0 q.1 q.2 = ⟨h0.entries ++ [(q.1, [q.2])]⟩ := by
      rw [Headers.appendRaw, if_neg (by simp [hany])]
    rw [List.foldl_cons, h1,
      ih ⟨h0.entries ++ [(q.1, [q.2])]⟩ ?_ hqs]
    · simp
    · intro p hp e he
      rcases List.mem_append.1 he with hcase | hcase
      · exact hdisj p (List.mem_cons_of_mem _ hp) e hcase
      · have : e = (q.1, [q.2]) := by simpa using hcase
        subst this
        exact hq p hp

/-- The round trip through the serialized header map yields the entries in
order, each name's values collapsed into the single joined string. -/
theorem headers_deserialize_serialize (h : Headers) (hwf : h.wf) :
    (Headers.deserialize h.serialize).entries
      = h.entries.map (fun e => (e.1, [joinValues e.2])) := by
  rw [Headers.deserialize, Headers.serialize,
    foldl_appendRaw _ Headers.empty (by intro p _ e he; simp [Headers.empty] at he)
      (by rw [List.pairwise_map]; exact hwf)]
  simp [Headers.empty, List.map_map]

/-- For single-valued headers the round trip is the identity. -/
theorem headers_roundtrip_singleValued (h : Headers) (hwf : h.wf)
    (hsv : h.singleValued) : Headers.deserialize h.serialize = h := by
  apply Headers.eq_of_entries
  rw [headers_deserialize_serialize h hwf]
  have : ∀ e ∈ h.entries, (fun e : String × List String => (e.1, [joinValues e.2])) e = e := by
    intro e he
    obtain ⟨n, vs⟩ := e
    have hlen := hsv (n, vs) he
    rw [List.length_eq_one] at hlen
    obtain ⟨v, hv⟩ := hlen
    simp only at hv
    subst hv
    simp [joinValues]
  rw [List.map_congr_left this]
  simp

/-- Single-valued round trip for request data whose stored strings are
well-formed. -/
theorem requestData_deserialize_serialize (rd : RequestData)
    (htw : ∀ t, rd.target = some t → t.url.wf ∧ t.method.wf)
    (hwf : rd.headers.wf) (hsv : rd.headers.singleValued) :
    RequestData.deserialize rd.serialize = .ok rd := by
  obtain ⟨target, gzip, redirect, timeout, auth, headers, body⟩ := rd
  have hh : Headers.deserialize headers.serialize = headers :=
    headers_roundtrip_singleValued headers hwf hsv
  cases target with
  | none => simp [RequestData.serialize, RequestData.deserialize, hh]
  | some t =>
    obtain ⟨hu, hm⟩ := htw t rfl
    obtain ⟨url, method⟩ := t
    simp [RequestData.serialize, RequestData.deserialize,
      RequestTarget.serialize, RequestTarget.deserialize,
      Url.deserializeField, Method.deserializeField,
      url_parse_roundtrip _ hu, method_parse_roundtrip _ hm, hh]

/-- Single-valued round trip for response data with a well-formed url. -/
theorem responseData_deserialize_serialize (r : ResponseData)
    (hu : r.url.wf) (hwf : r.headers.wf) (hsv : r.headers.singleValued) :
    ResponseData.deserialize r.serialize = .ok r := by
  obtain ⟨url, status, headers, body⟩ := r
  have hh : Headers.deserialize headers.serialize = headers :=
    headers_roundtrip_singleValued headers hwf hsv
  simp [ResponseData.serialize, ResponseData.deserialize,
    url_parse_roundtrip _ hu, hh]

/-- Single-valued round trip for a whole interaction. -/
theorem replayData_deserialize_serialize (d : ReplayData) (hv : d.valid)
    (hsv1 : d.request.headers.singleValued)
    (hsv2 : d.response.headers.singleValued) :
    ReplayData.deserialize d.serialize = .ok d := by
  obtain ⟨htw, hru, hw1, hw2⟩ := hv
  obtain ⟨request, response⟩ := d
  rw [ReplayData.serialize, ReplayData.deserialize]
  simp only at htw hru hw1 hw2 hsv1 hsv2
  rw [requestData_deserialize_serialize request htw hw1 hsv1,
    responseData_deserialize_serialize response hru hw2 hsv2]

/-- No builder method of `ReplayRequestBuilder` touches `target`. -/
theorem applyOp_target (b : ReplayRequestBuilder) (op : BuilderOp) :
    (applyOp b op).data.target = b.data.target := by
  cases op <;> rfl

theorem foldl_applyOp_target (ops : List BuilderOp) :
    ∀ b : ReplayRequestBuilder,
      (ops.foldl applyOp b).data.target = b.data.target := by
  induction ops with
  | nil => intro b; rfl
  | cons o os ih => intro b; rw [List.foldl_cons, ih, applyOp_target]

/-- No builder method of `RequestBuilder` touches the stored url result. -/
theorem applyRBOp_url (b : RB) (op : RBOp) : (applyRBOp b op).url = b.url := by
  cases op <;> rfl

theorem foldl_applyRBOp_url (ops : List RBOp) :
    ∀ b : RB, (ops.foldl applyRBOp b).url = b.url := by
  induction ops with
  | nil => intro b; rfl
  | cons o os ih => intro b; rw [List.foldl_cons, ih, applyRBOp_url]

/-! ## Claim theorems -/

/-- C1 (code_bug evaluation): with a cassette that holds a recorded
interaction request-equivalent to the outgoing request, `send_request` in
Replay mode does not return the stored `ResponseData` and consumes nothing —
its Replay arm is `unimplemented!()`, so it panics, with zero transport
calls and the file untouched. The claimed matcher behavior (first
unconsumed equivalent interaction is consumed and its response returned) is
the documented intent (the inline comment and the `HandleChangedRequest`
docs) but is not implemented. -/
theorem c1_replay_mode_panics_unimplemented :
    ReplayFile.read c1File = .ok c1Recorded ∧
    requestEquivalent c1Recorded.request getUsersRequest ∧
    InnerClient.sendRequest .Replay c1Transport c1File getUsersRequest
      = { outcome := .panicUnimplemented, file := c1File, transportCalls := 0 } := by
  refine ⟨by decide, by decide, rfl⟩

/-- C2 (confirmed): every request built through `ReplayClient::request` —
whatever builder methods are applied — keeps `target = None`, because the
builder stores method and url in its own fields and `RequestData::default`
leaves `target` unset; `send` in Record mode then unwraps `None` and
panics, before any transport call or file write. -/
theorem c2_record_send_panics_on_unset_target (cd : ClientData) (m : Method)
    (u : Url) (ops : List BuilderOp) (transport : Transport) (fs : FileState) :
    (ops.foldl applyOp (ReplayClient.request cd m u)).data.target = none ∧
    InnerClient.sendRequest .Record transport fs
        (ops.foldl applyOp (ReplayClient.request cd m u)).data
      = { outcome := .panicUnwrapNone, file := fs, transportCalls := 0 } := by
  have htgt : (ops.foldl applyOp (ReplayClient.request cd m u)).data.target = none := by
    rw [foldl_applyOp_target]
    rfl
  exact ⟨htgt, by rw [InnerClient.sendRequest, htgt]⟩

/-- C3 (counterexample): an interaction whose request has the multi-valued
header `Accept: text/html` + `Accept: application/json` round-trips to an
interaction whose request is NOT request-equivalent to the original — the
two values are collapsed into the single string
`"text/html, application/json"`, so the header value sets differ. -/
theorem c3_multivalued_header_breaks_roundtrip :
    ReplayData.deserialize (ReplayData.serialize c3Interaction) = .ok c3RoundTripped ∧
    ¬ requestEquivalent c3RoundTripped.request c3Interaction.request := by
  refine ⟨by decide, by decide⟩

/-- C3 (amended): for every valid interaction whose request and response
headers are single-valued per name, deserializing the serialization yields
the interaction back exactly — in particular the result's request is
request-equivalent and its response identical to the original. -/
theorem c3_roundtrip_of_valid_single_valued (d : ReplayData) (hv : d.valid)
    (hsv1 : d.request.headers.singleValued)
    (hsv2 : d.response.headers.singleValued) :
    ReplayData.deserialize d.serialize = .ok d ∧
    (∀ d', ReplayData.deserialize d.serialize = .ok d' →
      requestEquivalent d'.request d.request ∧
        responseIdentical d'.response d.response) := by
  have hrt := replayData_deserialize_serialize d hv hsv1 hsv2
  refine ⟨hrt, ?_⟩
  intro d' hd'
  rw [hrt] at hd'
  cases hd'
  exact ⟨⟨rfl, rfl, rfl, rfl⟩, rfl, rfl, rfl, rfl⟩

/-- Witness for C3's amended round trip at the recorded example. -/
theorem c3_roundtrip_witness :
    c1Recorded.valid ∧ c1Recorded.request.headers.singleValued ∧
    c1Recorded.response.headers.singleValued ∧
    ReplayData.deserialize c1Recorded.serialize = .ok c1Recorded := by
  refine ⟨by decide, by decide, by decide, ?_⟩
  exact (c3_roundtrip_of_valid_single_valued c1Recorded (by decide) (by decide)
    (by decide)).1

/-- C4 (counterexample): recording two interactions in one session leaves
only the second in the file — `ReplayFile::write` goes through
`File::create`, which truncates, and the format holds a single interaction,
so the first recorded interaction is discarded rather than kept in an
ordered sequence. -/
theorem c4_second_write_discards_first :
    FileState.persisted
        (ReplayFile.write (ReplayFile.write { contents := none } c4First) c4Second)
      = [c4Second.serialize] ∧
    c4First.serialize ≠ c4Second.serialize := by
  refine ⟨rfl, by decide⟩

/-- C4 (amended): each write replaces the file's entire contents with the
single interaction being written, whatever was stored before; after a
session that records two interactions, only the most recent one is
persisted and the earlier one is discarded. -/
theorem c4_write_replaces_contents (fs : FileState) (d1 d2 : ReplayData) :
    (ReplayFile.write fs d1).contents = some d1.serialize ∧
    FileState.persisted (ReplayFile.write (ReplayFile.write fs d1) d2)
      = [d2.serialize] := ⟨rfl, rfl⟩

/-- C5 (counterexample): opening a cassette at a missing path yields an io
error, not an empty cassette — `File::open(&self.path)?` propagates the
failure. -/
theorem c5_missing_file_is_io_error :
    ReplayFile.read { contents := none } = .error .ioError := rfl

/-- C5 (amended): whenever the cassette file does not exist, `read` returns
the `IoError`; there is no empty-cassette success path. -/
theorem c5_read_missing_file_errors (fs : FileState) (h : fs.contents = none) :
    ReplayFile.read fs = .error .ioError := by
  rw [ReplayFile.read, h]

/-- Witness for C5's amended statement at the missing-file state. -/
theorem c5_read_missing_file_witness :
    ReplayFile.read { contents := none } = .error .ioError :=
  c5_read_missing_file_errors { contents := none } rfl

/-- C6 (confirmed): in Record mode, when the transport call fails the error
is returned unchanged (`req.send()?`), exactly one transport call was made,
and nothing is written — the file state is identical before and after. -/
theorem c6_transport_error_propagates_unrecorded (transport : Transport)
    (fs : FileState) (rd : RequestData) (t : RequestTarget) (e : String)
    (h1 : rd.target = some t) (h2 : transport (mkLiveRequest rd t) = .error e) :
    InnerClient.sendRequest .Record transport fs rd
      = { outcome := .transportError e, file := fs, transportCalls := 1 } := by
  simp [InnerClient.sendRequest, h1, h2]

/-- Witness for C6 at a concrete request and a failing transport. -/
theorem c6_transport_error_witness :
    getUsersRequest.target = some { url := urlEx, method := .Get } ∧
    InnerClient.sendRequest .Record
        (fun _ => .error "connection refused") { contents := none } getUsersRequest
      = { outcome := .transportError "connection refused"
          file := { contents := none }
          transportCalls := 1 } :=
  ⟨rfl, c6_transport_error_propagates_unrecorded
    (fun _ => .error "connection refused") { contents := none } getUsersRequest
    { url := urlEx, method := .Get } "connection refused" rfl rfl⟩

/-- C7 (counterexample): a name bound to the two values `a` and `b` comes
back from the round trip as the single value `"a, b"` — the serialized map
holds one string per name, so the multiplicity is collapsed. -/
theorem c7_multivalued_collapsed :
    (Headers.deserialize (Headers.serialize c7Multi)).entries
      = [("X-Multi", ["a, b"])] ∧
    Headers.canon (Headers.deserialize (Headers.serialize c7Multi))
      ≠ Headers.canon c7Multi := by
  refine ⟨by decide, by decide⟩

/-- C7 (amended): headers in which every name carries exactly one value are
preserved exactly by serialize-then-deserialize; a name with more than one
value is instead collapsed into one comma-joined value. -/
theorem c7_single_valued_headers_roundtrip (h : Headers) (hwf : h.wf)
    (hsv : h.singleValued) : Headers.deserialize h.serialize = h :=
  headers_roundtrip_singleValued h hwf hsv

/-- Witness for C7's amended statement at a concrete single-valued header set. -/
theorem c7_single_valued_witness :
    Headers.wf ⟨[("Accept", ["application/json"])]⟩ ∧
    Headers.singleValued ⟨[("Accept", ["application/json"])]⟩ ∧
    Headers.deserialize (Headers.serialize ⟨[("Accept", ["application/json"])]⟩)
      = ⟨[("Accept", ["application/json"])]⟩ :=
  ⟨by decide, by decide,
    c7_single_valued_headers_roundtrip ⟨[("Accept", ["application/json"])]⟩
      (by decide) (by decide)⟩

/-- C8 (confirmed): the builder created by the `create` event at position
`pre` carries a `RequestData` seeded by copy from the session config as
folded over the events before it — gzip, redirect and timeout are copied —
and the builder is the same whatever config mutations `post` follow. -/
theorem c8_builder_snapshot_immune_to_later_config (cd : ClientData)
    (pre : List SessionEvent) (m : Method) (u : Url) (post : List SessionEvent) :
    (sessionBuilders cd (pre ++ SessionEvent.create m u :: post))[countCreates pre]?
        = some (ReplayClient.request (pre.foldl stepConfig cd) m u) ∧
    (ReplayClient.request (pre.foldl stepConfig cd) m u).data.gzip
        = (pre.foldl stepConfig cd).gzip ∧
    (ReplayClient.request (pre.foldl stepConfig cd) m u).data.redirect
        = (pre.foldl stepConfig cd).redirect ∧
    (ReplayClient.request (pre.foldl stepConfig cd) m u).data.timeout
        = (pre.foldl stepConfig cd).timeout := by
  refine ⟨?_, rfl, rfl, rfl⟩
  induction pre generalizing cd with
  | nil => simp [sessionBuilders, countCreates]
  | cons e pre' ih =>
    cases e with
    | create m' u' =>
      rw [List.cons_append]
      simp only [sessionBuilders]
      have hc : countCreates (SessionEvent.create m' u' :: pre')
          = countCreates pre' + 1 := by
        simp [countCreates]
      rw [hc, List.getElem?_cons_succ, List.foldl_cons]
      exact ih cd
    | setGzip b =>
      rw [List.cons_append]
      simp only [sessionBuilders]
      have hc : countCreates (SessionEvent.setGzip b :: pre')
          = countCreates pre' := by
        simp [countCreates]
      rw [hc, List.foldl_cons]
      exact ih (stepConfig cd (.setGzip b))
    | setRedirect p =>
      rw [List.cons_append]
      simp only [sessionBuilders]
      have hc : countCreates (SessionEvent.setRedirect p :: pre')
          = countCreates pre' := by
        simp [countCreates]
      rw [hc, List.foldl_cons]
      exact ih (stepConfig cd (.setRedirect p))
    | setTimeout d =>
      rw [List.cons_append]
      simp only [sessionBuilders]
      have hc : countCreates (SessionEvent.setTimeout d :: pre')
          = countCreates pre' := by
        simp [countCreates]
      rw [hc, List.foldl_cons]
      exact ih (stepConfig cd (.setTimeout d))

/-- C9 (counterexample): handing a malformed url to `ReplayClient::request`
panics — the code runs `url.into_url().unwrap()` — rather than surfacing a
typed `InvalidUrl` error. -/
theorem c9_malformed_url_panics_in_replay_client :
    ReplayClient.requestFromString ClientData.default .Get "not a url".toList
      = .panicked := by decide

/-- C9 (amended): in the standalone `RequestBuilder`, a malformed url is
captured at builder creation and surfaces as the typed `InvalidUrl` error
when `send` is called, with zero transport calls — never retried. -/
theorem c9_request_builder_surfaces_invalid_url (u : List Char) (m : Method)
    (ops : List RBOp) (execute : RBRequest → Except String TransportResponse)
    (h : Url.parse u = none) :
    RB.send execute (ops.foldl applyRBOp (RequestBuilder.new u m))
      = (.error .invalidUrl, 0) := by
  have hurl : (ops.foldl applyRBOp (RequestBuilder.new u m)).url = .error () := by
    rw [foldl_applyRBOp_url]
    simp [RequestBuilder.new, h]
  simp [RB.send, hurl]

/-- Witness for C9's amended statement at a concrete malformed url. -/
theorem c9_invalid_url_witness :
    Url.parse "not a url".toList = none ∧
    RB.send (fun _ => .error "unreachable")
        ([].foldl applyRBOp (RequestBuilder.new "not a url".toList .Get))
      = (.error .invalidUrl, 0) :=
  ⟨by decide, c9_request_builder_surfaces_invalid_url "not a url".toList .Get []
    (fun _ => .error "unreachable") (by decide)⟩

/-- C10 (confirmed): well-formed urls and methods re-parse from their stored
canonical string to an equal value; any stored string that fails to parse
makes the wrapper deserializer return the corrupt error (via serde's
`Error::custom`, never a panic), which `ReplayFile::read` reports as
`CorruptCassette`. -/
theorem c10_canonical_string_roundtrip_and_corrupt_error
    (u : Url) (m : Method) (su sm : List Char) (fs : FileState)
    (ser : SerReplayData) (hu : u.wf) (hm : m.wf)
    (hsu : Url.parse su = none) (hsm : Method.parse sm = none)
    (hfs : fs.contents = some ser)
    (hser : ReplayData.deserialize ser = .error .corrupt) :
    Url.deserializeField u.toChars = .ok u ∧
    Method.deserializeField m.toChars = .ok m ∧
    Url.deserializeField su = .error .corrupt ∧
    Method.deserializeField sm = .error .corrupt ∧
    ReplayFile.read fs = .error .corruptCassette := by
  refine ⟨?_, ?_, ?_, ?_, ?_⟩
  · simp [Url.deserializeField, url_parse_roundtrip u hu]
  · simp [Method.deserializeField, method_parse_roundtrip m hm]
  · simp [Url.deserializeField, hsu]
  · simp [Method.deserializeField, hsm]
  · simp [ReplayFile.read, hfs, hser]

/-- Witness for C10 at concrete well-formed and corrupt inputs. -/
theorem c10_witness :
    urlEx.wf ∧ Method.wf .Get ∧
    Url.deserializeField urlEx.toChars = .ok urlEx ∧
    Method.deserializeField Method.Get.toChars = .ok Method.Get ∧
    Url.deserializeField "bogus".toList = .error .corrupt ∧
    Method.deserializeField "@@".toList = .error .corrupt ∧
    ReplayFile.read { contents := some c10BadSer } = .error .corruptCassette := by
  have main := c10_canonical_string_roundtrip_and_corrupt_error urlEx .Get
    "bogus".toList "@@".toList { contents := some c10BadSer } c10BadSer
    (by decide) (by decide) (by decide) (by decide) rfl (by decide)
  exact ⟨by decide, by decide, main.1, main.2.1, main.2.2.1, main.2.2.2.1,
    main.2.2.2.2⟩

end ReqwestMock
